import Mathlib

/-!
Shallow embedding of the rotating segmented NMEA log writer
(src/ADSB_GPS/gatherNMEAcompress.py, the primary script of the repository;
spec section 1 discounts the near-duplicate variant scripts and section 9
adopts this script's index-based retention arithmetic).

Modelling conventions:
* Timestamps are naturals (the script uses time.time(); the clock is assumed
  monotone within a run, so "elapsed >= bound" becomes startTime + bound <= t).
* The script backgrounds compression (os.system gzip ... ampersand) and the
  retention pass checks os.path.exists immediately, so whether the
  just-dispatched artifact is on disk when the pass runs depends on timing
  the code does not control.  The disk field of the state records the
  prompt-compression best case (artifact present from dispatch on); results
  about it state that assumption explicitly.  The eviction-target, removal
  and missing-warning logs are exact bookkeeping of what the pass computed
  and did, independent of that assumption.
* The asynchronous SIGINT/SIGTERM flag is modelled by a schedule shutAt:
  the flag reads of the script are numbered consecutively (one read per line
  at the top of the for-body, line 164, and one more read at the rotation
  point, line 180); read number n sees the flag set iff shutAt = some k with
  k <= n.  This makes the signal's arrival point between any two flag reads
  expressible.
-/

namespace FlightLog

/-- Whitespace recognized by Python's str.strip() restricted to the ASCII
characters that can occur in this byte stream: space, tab, newline, carriage
return, vertical tab, form feed. -/
def pyIsSpace (c : Char) : Bool :=
  c = ' ' || c = '\t' || c = '\n' || c = '\r' || c = '\x0b' || c = '\x0c'

/-- Python line.strip(): drop whitespace from both ends of the line. -/
def pyStrip (s : String) : String :=
  String.mk (((s.data.dropWhile pyIsSpace).reverse.dropWhile pyIsSpace).reverse)

/-- The configured sentinel set marking a data sentence: gatherNMEAcompress.py
line 168 keeps exactly the lines whose stripped text starts with a dollar
sign (NMEA sentences). -/
def sentinels : List Char := ['$']

/-- Line filter of gatherNMEAcompress.py lines 167-169:
skip the line unless line.strip() is nonempty and line.strip().startswith
the dollar sentinel.  startswith with a one-character pattern is a test on
the first character. -/
def accept (line : String) : Bool :=
  let t := pyStrip line
  !t.data.isEmpty && (t.data.head? == some '$')

/-- Python data.splitlines() restricted to the ASCII line terminators that
occur on this stream: a line break is a carriage-return/newline pair, a lone
carriage return, or a lone newline; no trailing empty line is produced for a
terminal break. -/
def splitLinesAux : List Char → List Char → List String
  | [], acc => if acc.isEmpty then [] else [String.mk acc.reverse]
  | '\r' :: '\n' :: rest, acc => String.mk acc.reverse :: splitLinesAux rest []
  | '\r' :: rest, acc => String.mk acc.reverse :: splitLinesAux rest []
  | '\n' :: rest, acc => String.mk acc.reverse :: splitLinesAux rest []
  | c :: rest, acc => splitLinesAux rest (c :: acc)

/-- data.splitlines() on one recv chunk. -/
def pySplitlines (s : String) : List String :=
  splitLinesAux s.data []

/-- The rotation options of gatherNMEAcompress.py (argparse, lines 64-75):
lines per file, seconds per file, number of compressed files to keep. -/
structure Config where
  linesPerFile : Nat
  timePerFile : Nat
  numFilesToKeep : Nat
deriving Repr, DecidableEq

/-- One output file and its accounting data: the counter embedded in its
name (current_filename = [pre]_[index].txt), the time it was opened
(start_time_current_file), and the lines written to it, in order. -/
structure Segment where
  index : Nat
  openedAt : Nat
  lines : List String
deriving Repr, DecidableEq

/-- The mutable state of main's loop (gatherNMEAcompress.py lines 110-113
and the file handle), together with observation logs:
lineCount, fileCounter, startTime mirror line_count, file_counter,
start_time_current_file; active is the open file; closed collects files in
the order they were closed; disk is the set of compressed artifact indices
present (instantaneous-compression model); dispatched logs gzip dispatches;
evictTargets, removedLog, missingLog log the retention passes; acceptedCount
counts lines that passed the filter; dropped records that an accepted line
was abandoned at the shutdown check of line 180. -/
structure LoopState where
  lineCount : Nat
  fileCounter : Nat
  startTime : Nat
  active : Option Segment
  closed : List Segment
  disk : List Nat
  dispatched : List Nat
  evictTargets : List Nat
  removedLog : List Nat
  missingLog : List Nat
  acceptedCount : Nat
  dropped : Bool
deriving Repr, DecidableEq

/-- Initial state at loop entry (lines 110-113): no file open, counters
zero, start_time_current_file set to the pre-loop clock reading. -/
def initState (t0 : Nat) : LoopState :=
  { lineCount := 0, fileCounter := 0, startTime := t0, active := none,
    closed := [], disk := [], dispatched := [], evictTargets := [],
    removedLog := [], missingLog := [], acceptedCount := 0, dropped := false }

/-- Result of one retention pass: the disk afterwards, the eviction index it
computed (if its guard passed), the artifact it removed (if present), and
the artifact it reported missing (warning path). -/
structure RetResult where
  disk : List Nat
  target : Option Nat
  removed : Option Nat
  missing : Option Nat
deriving Repr, DecidableEq

/-- Retention pass of gatherNMEAcompress.py lines 192-200, run while closing
a file, with file_counter still equal to the index of the file being opened
next:  oldest_file_index_to_delete = file_counter - num_files_to_keep; if
that is nonnegative (here: keep <= fc, with the target fc - keep in Nat),
unlink the artifact for that index if it exists, otherwise print a warning
and continue. -/
def enforceRetention (keep fc : Nat) (disk : List Nat) : RetResult :=
  if keep ≤ fc then
    let t := fc - keep
    if t ∈ disk then
      { disk := disk.erase t, target := some t, removed := some t, missing := none }
    else
      { disk := disk, target := some t, removed := none, missing := some t }
  else
    { disk := disk, target := none, removed := none, missing := none }

/-- Closing the open file on rotation (lines 185-200): close it, dispatch
gzip on it in the background (the disk field optimistically records the
artifact at once — the prompt-compression best case, see the module
comment; the logs are exact either way), then run the retention pass with
the current file_counter. -/
def closeActive (cfg : Config) (s : LoopState) (seg : Segment) : LoopState :=
  let r := enforceRetention cfg.numFilesToKeep s.fileCounter (s.disk ++ [seg.index])
  { s with
    active := none,
    closed := s.closed ++ [seg],
    dispatched := s.dispatched ++ [seg.index],
    disk := r.disk,
    evictTargets := s.evictTargets ++ r.target.toList,
    removedLog := s.removedLog ++ r.removed.toList,
    missingLog := s.missingLog ++ r.missing.toList }

/-- Opening the next file (lines 202-208): its name carries the current
file_counter, line_count resets, file_counter increments, the rotation clock
restarts. -/
def openNew (s : LoopState) (t : Nat) : LoopState :=
  { s with
    active := some { index := s.fileCounter, openedAt := t, lines := [] },
    lineCount := 0,
    fileCounter := s.fileCounter + 1,
    startTime := t }

/-- Writing one accepted line (lines 210-212): append line.strip() to the
open file and increment line_count. -/
def appendData (s : LoopState) (line : String) : LoopState :=
  { s with
    active := s.active.map fun seg => { seg with lines := seg.lines ++ [line] },
    lineCount := s.lineCount + 1 }

/-- Rotation test of lines 174-176: rotate iff no file is open, or
line_count has reached lines_per_file, or the time elapsed since
start_time_current_file has reached time_per_file. -/
def rotPred (cfg : Config) (s : LoopState) (t : Nat) : Bool :=
  s.active.isNone || decide (cfg.linesPerFile ≤ s.lineCount)
    || decide (s.startTime + cfg.timePerFile ≤ t)

/-- One raw line handed to the for-body, with the clock reading current while
it is processed. -/
structure InLine where
  text : String
  time : Nat
deriving Repr, DecidableEq

/-- Whether flag read number tick sees the shutdown flag set, under the
schedule shutAt. -/
def shutSeen (shutAt : Option Nat) (tick : Nat) : Bool :=
  match shutAt with
  | some k => decide (k ≤ tick)
  | none => false

/-- The for-body of gatherNMEAcompress.py lines 163-212 for one raw line.
Returns the state, the next flag-read number, and whether the body broke out
of the loop.  Control flow: line 164 reads the flag and breaks; line 168
filters; lines 174-176 test rotation; on rotation, line 180 reads the flag
again and, if it is set while a file is open, abandons the line and breaks
(lines 181-183); otherwise the open file is closed (with gzip dispatch and
retention, lines 185-200), a new file is opened (202-208), and the stripped
line is written (210-212). -/
def procLine (cfg : Config) (shutAt : Option Nat) (s : LoopState) (tick : Nat)
    (l : InLine) : LoopState × Nat × Bool :=
  if shutSeen shutAt tick then (s, tick + 1, true)
  else if !accept l.text then (s, tick + 1, false)
  else
    let s1 := { s with acceptedCount := s.acceptedCount + 1 }
    if rotPred cfg s1 l.time then
      if shutSeen shutAt (tick + 1) && s1.active.isSome then
        ({ s1 with dropped := true }, tick + 2, true)
      else
        let s2 := match s1.active with
          | some seg => closeActive cfg s1 seg
          | none => s1
        (appendData (openNew s2 l.time) (pyStrip l.text), tick + 2, false)
    else
      (appendData s1 (pyStrip l.text), tick + 1, false)

/-- Run the for-body over a list of raw lines, stopping at the first break. -/
def runLinesAux (cfg : Config) (shutAt : Option Nat) :
    LoopState → Nat → List InLine → LoopState
  | s, _, [] => s
  | s, tick, l :: rest =>
    let r := procLine cfg shutAt s tick l
    if r.2.2 then r.1 else runLinesAux cfg shutAt r.1 r.2.1 rest

/-- A full ingestion run from the initial state. -/
def runLines (cfg : Config) (shutAt : Option Nat) (t0 : Nat)
    (inputs : List InLine) : LoopState :=
  runLinesAux cfg shutAt (initState t0) 0 inputs

/-- The finally block of lines 236-241: if a file is still open, close it
and dispatch its compression. -/
def finalizeState (s : LoopState) : LoopState :=
  match s.active with
  | some seg =>
    { s with
      active := none,
      closed := s.closed ++ [seg],
      dispatched := s.dispatched ++ [seg.index],
      disk := s.disk ++ [seg.index] }
  | none => s

/-- A full run of main including the final cleanup. -/
def runMain (cfg : Config) (shutAt : Option Nat) (t0 : Nat)
    (inputs : List InLine) : LoopState :=
  finalizeState (runLines cfg shutAt t0 inputs)

/-- The for-body with the shutdown flag never set (its break branches are
unreachable then, and the flag-read numbering is irrelevant). -/
def procLineNS (cfg : Config) (s : LoopState) (l : InLine) : LoopState :=
  (procLine cfg none s 0 l).1

/-- The read loop of lines 156-163 without a shutdown request: each recv
chunk is decoded, cut with splitlines, and every resulting piece is handed
to the for-body as a line of its own; no carry-over buffer joins a piece to
the next chunk.  A chunk is the received text together with the clock
reading while it is processed. -/
def runChunks (cfg : Config) (s : LoopState) (chunks : List (String × Nat)) :
    LoopState :=
  chunks.foldl
    (fun s ch =>
      (pySplitlines ch.1).foldl (fun s txt => procLineNS cfg s ⟨txt, ch.2⟩) s) s

/-- The marker text written by the periodic time stamp of lines 122-127. -/
def markLine (stamp : String) : String :=
  "#NTP_TIME " ++ stamp

/-- The periodic time-marker write of gatherNMEAcompress.py lines 122-127:
if a file is open and the marker interval has elapsed since the last marker,
write one marker line to the open file and remember the clock reading;
line_count is not touched.  Returns the state and the new last-marker time. -/
def annotStep (s : LoopState) (t lastMark interval : Nat) (stamp : String) :
    LoopState × Nat :=
  if s.active.isSome && decide (lastMark + interval ≤ t) then
    ({ s with
        active := s.active.map fun seg =>
          { seg with lines := seg.lines ++ [markLine stamp] } }, t)
  else (s, lastMark)

/-- How a run of gatherNMEAcompress.py's main ends. -/
inductive RunEnd
  | cleanEOF
  | drained
  | connectFail
  | readError
deriving Repr, DecidableEq

/-- Process exit status of gatherNMEAcompress.py by ending cause.  The
script contains no sys.exit call: a connect failure is caught at line 232
(print, then the finally block), a read error is caught at lines 228-230
(print, break, then the finally block), end-of-stream and a signal drain
leave the loop normally; on every path main returns and the interpreter
exits with status 0. -/
def nmeaExitCode : RunEnd → Nat
  | .connectFail => 0
  | .readError => 0
  | .cleanEOF => 0
  | .drained => 0

/-- End of main: the finally block of lines 236-246 runs on every path and
the process exits with the status determined by the ending cause. -/
def nmeaMainEnd (e : RunEnd) (s : LoopState) : LoopState × Nat :=
  (finalizeState s, nmeaExitCode e)

/-- Total number of data lines written across all segments, the open one
included. -/
def totalData (s : LoopState) : Nat :=
  (s.closed.map fun seg => seg.lines.length).sum +
    (match s.active with
     | some seg => seg.lines.length
     | none => 0)

/-- The compressed artifacts that the retention arithmetic leaves on disk
when file_counter has reached fc: the indices m below the last closed index
fc - 1 with m + keep still at least fc. -/
def window (keep fc : Nat) : List Nat :=
  (List.range (fc - 1)).filter fun m => decide (fc < m + keep + 1)

/-- The acceptance rule in the words of the specification: a line is kept
iff it is nonempty after trimming and its first character lies in the
configured sentinel set. -/
def specAccept (line : String) : Bool :=
  match (pyStrip line).data with
  | [] => false
  | c :: _ => c ∈ sentinels

/-- Structural invariant of the loop state: the open file's recorded lines
match line_count and its index is one below file_counter; before the first
file is opened file_counter is zero; every closed file has been dispatched
for compression, in closing order; and the data lines written across all
files account for every accepted line, short of the one record abandoned
when dropped is set. -/
def Inv (s : LoopState) : Prop :=
  (∀ seg, s.active = some seg →
    seg.lines.length = s.lineCount ∧ seg.index + 1 = s.fileCounter)
  ∧ (s.active = none → s.fileCounter = 0)
  ∧ s.dispatched = s.closed.map Segment.index
  ∧ totalData s + (cond s.dropped 1 0) = s.acceptedCount

end FlightLog

namespace FlightLog

theorem shutSeen_none (tick : Nat) : shutSeen none tick = false := rfl

theorem bump_active (s : LoopState) (n : Nat) :
    ({ s with acceptedCount := n } : LoopState).active = s.active := rfl

theorem rotPred_bump (cfg : Config) (s : LoopState) (n t : Nat) :
    rotPred cfg { s with acceptedCount := n } t = rotPred cfg s t := rfl

/-- Exhaustive description of the six ways the for-body can run: break at the
per-line flag read; reject the line; abandon an accepted line at the rotation
flag read; rotate with a file open; rotate with no file open; plain write. -/
theorem procLine_spec (cfg : Config) (shutAt : Option Nat) (s : LoopState)
    (tick : Nat) (l : InLine) :
    (shutSeen shutAt tick = true ∧ procLine cfg shutAt s tick l = (s, tick + 1, true))
    ∨ (shutSeen shutAt tick = false ∧ accept l.text = false
        ∧ procLine cfg shutAt s tick l = (s, tick + 1, false))
    ∨ (∃ seg, shutSeen shutAt tick = false ∧ accept l.text = true
        ∧ rotPred cfg s l.time = true ∧ shutSeen shutAt (tick + 1) = true
        ∧ s.active = some seg
        ∧ procLine cfg shutAt s tick l =
            ({ s with acceptedCount := s.acceptedCount + 1, dropped := true },
              tick + 2, true))
    ∨ (∃ seg, shutSeen shutAt tick = false ∧ accept l.text = true
        ∧ rotPred cfg s l.time = true ∧ shutSeen shutAt (tick + 1) = false
        ∧ s.active = some seg
        ∧ procLine cfg shutAt s tick l =
            (appendData
              (openNew
                (closeActive cfg { s with acceptedCount := s.acceptedCount + 1 } seg)
                l.time)
              (pyStrip l.text), tick + 2, false))
    ∨ (shutSeen shutAt tick = false ∧ accept l.text = true
        ∧ rotPred cfg s l.time = true ∧ s.active = none
        ∧ procLine cfg shutAt s tick l =
            (appendData
              (openNew { s with acceptedCount := s.acceptedCount + 1 } l.time)
              (pyStrip l.text), tick + 2, false))
    ∨ (shutSeen shutAt tick = false ∧ accept l.text = true
        ∧ rotPred cfg s l.time = false
        ∧ procLine cfg shutAt s tick l =
            (appendData { s with acceptedCount := s.acceptedCount + 1 }
              (pyStrip l.text), tick + 1, false)) := by
  cases h1 : shutSeen shutAt tick with
  | true =>
    exact Or.inl ⟨rfl, by simp [procLine, h1]⟩
  | false =>
    cases hacc : accept l.text with
    | false =>
      exact Or.inr (Or.inl ⟨rfl, rfl, by simp [procLine, h1, hacc]⟩)
    | true =>
      cases hrot : rotPred cfg s l.time with
      | false =>
        have hrot' : rotPred cfg { s with acceptedCount := s.acceptedCount + 1 }
            l.time = false := hrot
        refine Or.inr (Or.inr (Or.inr (Or.inr (Or.inr ⟨rfl, rfl, rfl, ?_⟩))))
        simp [procLine, h1, hacc, hrot']
      | true =>
        cases hA : s.active with
        | none =>
          refine Or.inr (Or.inr (Or.inr (Or.inr (Or.inl ⟨rfl, rfl, rfl, rfl, ?_⟩))))
          simp [procLine, h1, hacc, hA, rotPred]
        | some seg =>
          have hrot2 : rotPred cfg
              { s with active := some seg, acceptedCount := s.acceptedCount + 1 }
              l.time = true := by
            have he :
                ({ s with active := some seg, acceptedCount := s.acceptedCount + 1 } : LoopState)
                = { s with acceptedCount := s.acceptedCount + 1 } := by rw [hA]
            rw [he]
            exact hrot
          cases h2 : shutSeen shutAt (tick + 1) with
          | true =>
            refine Or.inr (Or.inr (Or.inl ⟨seg, rfl, rfl, rfl, rfl, rfl, ?_⟩))
            simp [procLine, h1, hacc, hA, h2, hrot2]
          | false =>
            refine Or.inr (Or.inr (Or.inr (Or.inl ⟨seg, rfl, rfl, rfl, rfl, rfl, ?_⟩)))
            simp [procLine, h1, hacc, hA, h2, hrot2]

end FlightLog

namespace FlightLog

theorem totalData_bump (s : LoopState) (n : Nat) :
    totalData { s with acceptedCount := n } = totalData s := rfl

theorem totalData_closeActive (cfg : Config) (s : LoopState) (seg : Segment)
    (h : s.active = some seg) :
    totalData (closeActive cfg s seg) = totalData s := by
  simp [totalData, closeActive, h]

theorem totalData_openNew (s : LoopState) (t : Nat) (h : s.active = none) :
    totalData (openNew s t) = totalData s := by
  simp [totalData, openNew, h]

theorem totalData_appendData (s : LoopState) (line : String) (seg : Segment)
    (h : s.active = some seg) :
    totalData (appendData s line) = totalData s + 1 := by
  simp [totalData, appendData, h]
  omega

/-- Preservation of an arbitrary state predicate along the line loop: if
every for-body step preserves it from a not-yet-dropped state, it holds of
the loop's final state. -/
theorem runLinesAux_inv (cfg : Config) (shutAt : Option Nat)
    (P : LoopState → Prop)
    (hstep : ∀ s tick l, P s → s.dropped = false →
      P (procLine cfg shutAt s tick l).1 ∧
        ((procLine cfg shutAt s tick l).2.2 = false →
          (procLine cfg shutAt s tick l).1.dropped = false)) :
    ∀ (ls : List InLine) (s : LoopState) (tick : Nat),
      P s → s.dropped = false → P (runLinesAux cfg shutAt s tick ls) := by
  intro ls
  induction ls with
  | nil => intro s tick hP _; exact hP
  | cons l rest ih =>
    intro s tick hP hd
    have h := hstep s tick l hP hd
    cases hbr : (procLine cfg shutAt s tick l).2.2 with
    | true => simpa [runLinesAux, hbr] using h.1
    | false =>
      simp only [runLinesAux, hbr, if_false, Bool.false_eq_true]
      exact ih _ _ h.1 (h.2 hbr)

/-- With the shutdown flag never set, the for-body reduces to four cases:
reject, rotate with a file open, rotate with no file open, plain write; it
never breaks. -/
theorem procLine_none_cases (cfg : Config) (s : LoopState) (l : InLine)
    (tick : Nat) :
    (accept l.text = false ∧ procLine cfg none s tick l = (s, tick + 1, false))
    ∨ (∃ seg, accept l.text = true ∧ rotPred cfg s l.time = true
        ∧ s.active = some seg
        ∧ procLine cfg none s tick l =
            (appendData
              (openNew
                (closeActive cfg { s with acceptedCount := s.acceptedCount + 1 } seg)
                l.time)
              (pyStrip l.text), tick + 2, false))
    ∨ (accept l.text = true ∧ rotPred cfg s l.time = true ∧ s.active = none
        ∧ procLine cfg none s tick l =
            (appendData
              (openNew { s with acceptedCount := s.acceptedCount + 1 } l.time)
              (pyStrip l.text), tick + 2, false))
    ∨ (accept l.text = true ∧ rotPred cfg s l.time = false
        ∧ procLine cfg none s tick l =
            (appendData { s with acceptedCount := s.acceptedCount + 1 }
              (pyStrip l.text), tick + 1, false)) := by
  rcases procLine_spec cfg none s tick l with
      ⟨h1, _⟩ | ⟨_, hacc, heq⟩ | ⟨seg, _, _, _, h2, _, _⟩
      | ⟨seg, _, hacc, hrot, _, hA, heq⟩ | ⟨_, hacc, hrot, hA, heq⟩
      | ⟨_, hacc, hrot, heq⟩
  · exact absurd h1 (by simp [shutSeen])
  · exact Or.inl ⟨hacc, heq⟩
  · exact absurd h2 (by simp [shutSeen])
  · exact Or.inr (Or.inl ⟨seg, hacc, hrot, hA, heq⟩)
  · exact Or.inr (Or.inr (Or.inl ⟨hacc, hrot, hA, heq⟩))
  · exact Or.inr (Or.inr (Or.inr ⟨hacc, hrot, heq⟩))

/-- With the shutdown flag never set, the for-body's state change does not
depend on the flag-read numbering, and no break occurs. -/
theorem procLine_none_fst (cfg : Config) (s : LoopState) (tick : Nat)
    (l : InLine) :
    (procLine cfg none s tick l).1 = procLineNS cfg s l ∧
      (procLine cfg none s tick l).2.2 = false := by
  rcases procLine_none_cases cfg s l tick with
      ⟨hacc, heq⟩ | ⟨seg, hacc, hrot, hA, heq⟩ | ⟨hacc, hrot, hA, heq⟩
      | ⟨hacc, hrot, heq⟩ <;>
    rcases procLine_none_cases cfg s l 0 with
        ⟨hacc0, heq0⟩ | ⟨seg0, hacc0, hrot0, hA0, heq0⟩ | ⟨hacc0, hrot0, hA0, heq0⟩
        | ⟨hacc0, hrot0, heq0⟩ <;>
      simp_all [procLineNS]

/-- The line loop with the shutdown flag never set is a fold of the
flag-free for-body. -/
theorem runLinesAux_none_foldl (cfg : Config) :
    ∀ (ls : List InLine) (s : LoopState) (tick : Nat),
      runLinesAux cfg none s tick ls = ls.foldl (procLineNS cfg) s := by
  intro ls
  induction ls with
  | nil => intro s tick; rfl
  | cons l rest ih =>
    intro s tick
    have h := procLine_none_fst cfg s tick l
    simp only [runLinesAux, h.2, if_false, Bool.false_eq_true, List.foldl_cons, h.1]
    exact ih _ _

end FlightLog

namespace FlightLog

theorem Inv_init (t0 : Nat) : Inv (initState t0) := by
  refine ⟨?_, fun _ => rfl, rfl, rfl⟩
  intro seg h
  simp [initState] at h

/-- The for-body preserves the structural invariant, for any shutdown
schedule; the dropped mark is only ever set on a breaking step. -/
theorem procLine_Inv (cfg : Config) (shutAt : Option Nat) (s : LoopState)
    (tick : Nat) (l : InLine) (hP : Inv s) (hd : s.dropped = false) :
    Inv (procLine cfg shutAt s tick l).1 ∧
      ((procLine cfg shutAt s tick l).2.2 = false →
        (procLine cfg shutAt s tick l).1.dropped = false) := by
  obtain ⟨hlink, hnone, hdisp, hacctg⟩ := hP
  rcases procLine_spec cfg shutAt s tick l with
      ⟨h1, heq⟩ | ⟨h1, hacc, heq⟩ | ⟨seg, h1, hacc, hrot, h2, hA, heq⟩
      | ⟨seg, h1, hacc, hrot, h2, hA, heq⟩ | ⟨h1, hacc, hrot, hA, heq⟩
      | ⟨h1, hacc, hrot, heq⟩
  · rw [heq]
    exact ⟨⟨hlink, hnone, hdisp, hacctg⟩, by simp⟩
  · rw [heq]
    exact ⟨⟨hlink, hnone, hdisp, hacctg⟩, fun _ => hd⟩
  · rw [heq]
    refine ⟨⟨hlink, hnone, hdisp, ?_⟩, by simp⟩
    have ht :
        totalData { s with acceptedCount := s.acceptedCount + 1, dropped := true }
        = totalData s := rfl
    rw [ht]
    rw [hd] at hacctg
    simp at hacctg ⊢; omega
  · rw [heq]
    constructor
    · refine ⟨?_, ?_, ?_, ?_⟩
      · intro seg2 hseg2
        simp [appendData, openNew, closeActive] at hseg2
        subst hseg2
        simp [appendData, openNew, closeActive]
      · intro hn
        simp [appendData, openNew] at hn
      · simp [appendData, openNew, closeActive, hdisp]
      · have hsb : ({ s with acceptedCount := s.acceptedCount + 1 } :
            LoopState).active = some seg := hA
        have h1t := totalData_closeActive cfg
          { s with acceptedCount := s.acceptedCount + 1 } seg hsb
        have h2t := totalData_openNew
          (closeActive cfg { s with acceptedCount := s.acceptedCount + 1 } seg)
          l.time (by simp [closeActive])
        have h3t := totalData_appendData
          (openNew (closeActive cfg { s with acceptedCount := s.acceptedCount + 1 } seg)
            l.time)
          (pyStrip l.text)
          { index := (closeActive cfg { s with acceptedCount := s.acceptedCount + 1 }
              seg).fileCounter, openedAt := l.time, lines := [] }
          (by simp [openNew])
        rw [h3t, h2t, h1t, totalData_bump]
        have hdrop : (appendData
            (openNew (closeActive cfg { s with acceptedCount := s.acceptedCount + 1 } seg)
              l.time)
            (pyStrip l.text)).dropped = false := by
          simp [appendData, openNew, closeActive, hd]
        rw [hdrop]
        rw [hd] at hacctg
        simp [appendData, openNew, closeActive] at hacctg ⊢; omega
    · intro _
      simp [appendData, openNew, closeActive, hd]
  · rw [heq]
    have hfc := hnone hA
    constructor
    · refine ⟨?_, ?_, ?_, ?_⟩
      · intro seg2 hseg2
        simp [appendData, openNew] at hseg2
        subst hseg2
        simp [appendData, openNew]
      · intro hn
        simp [appendData, openNew] at hn
      · simp [appendData, openNew, hdisp]
      · have h2t := totalData_openNew
          ({ s with acceptedCount := s.acceptedCount + 1 }) l.time hA
        have h3t := totalData_appendData
          (openNew { s with acceptedCount := s.acceptedCount + 1 } l.time)
          (pyStrip l.text)
          { index := s.fileCounter, openedAt := l.time, lines := [] }
          (by simp [openNew])
        rw [h3t, h2t, totalData_bump]
        have hdrop : (appendData
            (openNew { s with acceptedCount := s.acceptedCount + 1 } l.time)
            (pyStrip l.text)).dropped = false := by
          simp [appendData, openNew, hd]
        rw [hdrop]
        rw [hd] at hacctg
        simp [appendData, openNew, closeActive] at hacctg ⊢; omega
    · intro _
      simp [appendData, openNew, hd]
  · rw [heq]
    have hsome : s.active.isSome = true := by
      rcases hA : s.active with _ | seg
      · rw [rotPred, hA] at hrot
        simp at hrot
      · rfl
    obtain ⟨seg, hA⟩ := Option.isSome_iff_exists.mp hsome
    constructor
    · refine ⟨?_, ?_, ?_, ?_⟩
      · intro seg2 hseg2
        simp [appendData, hA] at hseg2
        obtain ⟨h1l, h2l⟩ := hlink seg hA
        subst hseg2
        simp [appendData, h1l, h2l]
      · intro hn
        simp [appendData, hA] at hn
      · simp [appendData, hdisp]
      · have h3t := totalData_appendData
          ({ s with acceptedCount := s.acceptedCount + 1 }) (pyStrip l.text) seg hA
        rw [h3t, totalData_bump]
        have hdrop : (appendData { s with acceptedCount := s.acceptedCount + 1 }
            (pyStrip l.text)).dropped = false := by
          simp [appendData, hd]
        rw [hdrop]
        rw [hd] at hacctg
        simp [appendData, openNew, closeActive] at hacctg ⊢; omega
    · intro _
      simp [appendData, hd]

/-- The structural invariant holds at the end of every line-loop run. -/
theorem runLines_Inv (cfg : Config) (shutAt : Option Nat) (t0 : Nat)
    (inputs : List InLine) : Inv (runLines cfg shutAt t0 inputs) := by
  exact runLinesAux_inv cfg shutAt Inv
    (fun s tick l hP hd => procLine_Inv cfg shutAt s tick l hP hd)
    inputs (initState t0) 0 (Inv_init t0) rfl

end FlightLog

namespace FlightLog

/-- Each flag-free for-body step adds exactly one written data line when the
line passes the filter, and none otherwise. -/
theorem totalData_procLineNS (cfg : Config) (s : LoopState) (l : InLine) :
    totalData (procLineNS cfg s l)
      = totalData s + (if accept l.text then 1 else 0) := by
  rcases procLine_none_cases cfg s l 0 with
      ⟨hacc, heq⟩ | ⟨seg, hacc, hrot, hA, heq⟩ | ⟨hacc, hrot, hA, heq⟩
      | ⟨hacc, hrot, heq⟩
  · unfold procLineNS
    rw [heq, hacc]
    simp
  · unfold procLineNS
    rw [heq]
    have hsb : ({ s with acceptedCount := s.acceptedCount + 1 } :
        LoopState).active = some seg := hA
    rw [totalData_appendData _ _
        { index := (closeActive cfg { s with acceptedCount := s.acceptedCount + 1 }
            seg).fileCounter, openedAt := l.time, lines := [] } rfl,
      totalData_openNew _ _ rfl,
      totalData_closeActive _ _ _ hsb, totalData_bump, hacc]
    simp
  · unfold procLineNS
    rw [heq]
    have hsb : ({ s with acceptedCount := s.acceptedCount + 1 } :
        LoopState).active = none := hA
    rw [totalData_appendData _ _
        { index := s.fileCounter, openedAt := l.time, lines := [] } rfl,
      totalData_openNew _ _ hsb, totalData_bump, hacc]
    simp
  · unfold procLineNS
    rw [heq]
    have hsome : s.active.isSome = true := by
      rcases hA : s.active with _ | seg
      · rw [rotPred, hA] at hrot
        simp at hrot
      · rfl
    obtain ⟨seg, hA⟩ := Option.isSome_iff_exists.mp hsome
    have hsb : ({ s with acceptedCount := s.acceptedCount + 1 } :
        LoopState).active = some seg := hA
    rw [totalData_appendData _ _ seg hsb, totalData_bump, hacc]
    simp

/-- C1: for every finite input line sequence with no shutdown request, the
total number of accepted records written across all segments (closed files
and the open one) equals the number of input lines satisfying the
acceptance rule — no accepted record is dropped and none is written twice,
the records that trigger a rotation included. -/
theorem write_conservation_no_shutdown (cfg : Config) (t0 : Nat)
    (inputs : List InLine) :
    totalData (runLines cfg none t0 inputs)
      = inputs.countP (fun l => accept l.text) := by
  rw [runLines, runLinesAux_none_foldl]
  have key : ∀ (ls : List InLine) (s : LoopState),
      totalData (ls.foldl (procLineNS cfg) s)
        = totalData s + ls.countP (fun l => accept l.text) := by
    intro ls
    induction ls with
    | nil => intro s; simp
    | cons l rest ih =>
      intro s
      rw [List.foldl_cons, ih, totalData_procLineNS, List.countP_cons]
      cases hacc : accept l.text
      · simp [hacc]
      · simp [hacc]
        omega
  rw [key]
  simp [totalData, initState]

/-- C2: for every accepted record processed with the shutdown flag unset,
the for-body evaluates the rotation test before appending; a new file is
opened (file_counter increments) exactly when the test holds; and when it
holds the triggering record becomes the sole line of the newly opened file,
while the file being closed moves to the closed list unchanged — the record
is never written to it. -/
theorem rotation_decision_on_write (cfg : Config) (s : LoopState) (tick : Nat)
    (l : InLine) (hacc : accept l.text = true) :
    ((procLine cfg none s tick l).1.fileCounter = s.fileCounter + 1
        ↔ rotPred cfg s l.time = true)
    ∧ (rotPred cfg s l.time = true →
        (procLine cfg none s tick l).1.active
          = some { index := s.fileCounter, openedAt := l.time, lines := [pyStrip l.text] }
        ∧ ∀ seg, s.active = some seg →
            (procLine cfg none s tick l).1.closed = s.closed ++ [seg])
    ∧ (rotPred cfg s l.time = false →
        (procLine cfg none s tick l).1.fileCounter = s.fileCounter
        ∧ (procLine cfg none s tick l).1.closed = s.closed
        ∧ ∀ seg, s.active = some seg →
            (procLine cfg none s tick l).1.active
              = some { seg with lines := seg.lines ++ [pyStrip l.text] }) := by
  rcases procLine_none_cases cfg s l tick with
      ⟨hacc0, _⟩ | ⟨seg, _, hrot, hA, heq⟩ | ⟨_, hrot, hA, heq⟩ | ⟨_, hrot, heq⟩
  · rw [hacc] at hacc0
    exact absurd hacc0 (by simp)
  · rw [heq]
    refine ⟨by simp [appendData, openNew, closeActive, hrot], fun _ => ?_, fun hr => ?_⟩
    · refine ⟨by simp [appendData, openNew, closeActive], ?_⟩
      intro seg2 hseg2
      rw [hA] at hseg2
      cases hseg2
      simp [appendData, openNew, closeActive]
    · rw [hrot] at hr
      cases hr
  · rw [heq]
    refine ⟨by simp [appendData, openNew, hrot], fun _ => ?_, fun hr => ?_⟩
    · refine ⟨by simp [appendData, openNew], ?_⟩
      intro seg2 hseg2
      rw [hA] at hseg2
      cases hseg2
    · rw [hrot] at hr
      cases hr
  · rw [heq]
    refine ⟨?_, fun hr => ?_, fun _ => ?_⟩
    · simp [appendData, hrot]
    · rw [hrot] at hr
      cases hr
    · refine ⟨by simp [appendData], by simp [appendData], ?_⟩
      intro seg2 hseg2
      simp [appendData, hseg2]

/-- C2 check at a concrete input: rotation fires on the first accepted
record (no file open yet) and the record lands alone in the new file. -/
theorem rotation_decision_on_write_check :
    accept "$GPGGA,X" = true
    ∧ rotPred { linesPerFile := 2, timePerFile := 1000000, numFilesToKeep := 50 }
        (initState 0) 5 = true
    ∧ (procLine { linesPerFile := 2, timePerFile := 1000000, numFilesToKeep := 50 }
        none (initState 0) 0 { text := "$GPGGA,X", time := 5 }).1.active
        = some { index := 0, openedAt := 5, lines := [pyStrip "$GPGGA,X"] } := by
  refine ⟨by decide, by decide, ?_⟩
  exact ((rotation_decision_on_write
      { linesPerFile := 2, timePerFile := 1000000, numFilesToKeep := 50 }
      (initState 0) 0 { text := "$GPGGA,X", time := 5 } (by decide)).2.1
      (by decide)).1

end FlightLog

namespace FlightLog

theorem window_append (keep a : Nat) (hK : 1 ≤ keep) :
    window keep (a + 1) ++ [a]
      = (List.range (a + 1)).filter fun m => decide (a + 1 < m + keep + 1) := by
  rw [window]
  simp only [Nat.add_sub_cancel]
  rw [List.range_succ, List.filter_append]
  congr 1
  rw [eq_comm, List.filter_eq_self]
  intro b hb
  rw [List.mem_singleton] at hb
  subst hb
  rw [decide_eq_true_eq]
  omega

/-- The retention pass run while closing the file of index a (file_counter
a + 1), on the disk left by the previous rotations plus the artifact just
dispatched, leaves exactly the artifacts of the next window. -/
theorem enforce_window (keep a : Nat) (hK : 1 ≤ keep) :
    (enforceRetention keep (a + 1) (window keep (a + 1) ++ [a])).disk
      = window keep (a + 2) := by
  rw [window_append keep a hK]
  by_cases hle : keep ≤ a + 1
  · have ht_mem : (a + 1 - keep)
        ∈ (List.range (a + 1)).filter fun m => decide (a + 1 < m + keep + 1) := by
      rw [List.mem_filter, List.mem_range]
      refine ⟨by omega, by simp; omega⟩
    have hnd : ((List.range (a + 1)).filter
        fun m => decide (a + 1 < m + keep + 1)).Nodup :=
      (List.filter_sublist _).nodup (List.nodup_range _)
    simp only [enforceRetention, hle, if_true, ht_mem, if_pos]
    rw [List.Nodup.erase_eq_filter hnd, List.filter_filter]
    have h21 : a + 2 - 1 = a + 1 := by omega
    rw [window, h21]
    apply List.filter_congr
    intro m hm
    rw [List.mem_range] at hm
    rw [Bool.eq_iff_iff]
    simp only [Bool.and_eq_true, bne_iff_ne, decide_eq_true_eq]
    omega
  · simp only [enforceRetention, hle, if_false]
    have h21 : a + 2 - 1 = a + 1 := by omega
    rw [window, h21]
    apply List.filter_congr
    intro m hm
    rw [List.mem_range] at hm
    rw [Bool.eq_iff_iff]
    simp only [decide_eq_true_eq]
    omega

theorem window_nodup (keep fc : Nat) : (window keep fc).Nodup :=
  (List.filter_sublist _).nodup (List.nodup_range _)

theorem window_mem (keep fc m : Nat) (hm : m ∈ window keep fc) :
    m + 1 < fc ∧ fc < m + keep + 1 := by
  rw [window, List.mem_filter, List.mem_range] at hm
  obtain ⟨h1, h2⟩ := hm
  rw [decide_eq_true_eq] at h2
  omega

theorem window_length_le (keep fc : Nat) : (window keep fc).length ≤ keep := by
  have hnd := window_nodup keep fc
  have hsub : (window keep fc).toFinset ⊆ Finset.Ico (fc - keep) (fc - 1) := by
    intro m hm
    rw [List.mem_toFinset] at hm
    have := window_mem keep fc m hm
    rw [Finset.mem_Ico]
    omega
  calc (window keep fc).length
      = (window keep fc).toFinset.card := (List.toFinset_card_of_nodup hnd).symm
    _ ≤ (Finset.Ico (fc - keep) (fc - 1)).card := Finset.card_le_card hsub
    _ = (fc - 1) - (fc - keep) := Nat.card_Ico _ _
    _ ≤ keep := by omega

end FlightLog

namespace FlightLog

/-- The for-body preserves the disk-window description of the compressed
artifacts (instantaneous-compression model), for any shutdown schedule. -/
theorem procLine_window (cfg : Config) (hK : 1 ≤ cfg.numFilesToKeep)
    (shutAt : Option Nat) (s : LoopState) (tick : Nat) (l : InLine)
    (hP : Inv s ∧ s.disk = window cfg.numFilesToKeep s.fileCounter)
    (hd : s.dropped = false) :
    (Inv (procLine cfg shutAt s tick l).1
      ∧ (procLine cfg shutAt s tick l).1.disk
          = window cfg.numFilesToKeep (procLine cfg shutAt s tick l).1.fileCounter)
    ∧ ((procLine cfg shutAt s tick l).2.2 = false →
        (procLine cfg shutAt s tick l).1.dropped = false) := by
  obtain ⟨hInv, hdisk⟩ := hP
  have hmain := procLine_Inv cfg shutAt s tick l hInv hd
  refine ⟨⟨hmain.1, ?_⟩, hmain.2⟩
  rcases procLine_spec cfg shutAt s tick l with
      ⟨h1, heq⟩ | ⟨h1, hacc, heq⟩ | ⟨seg, h1, hacc, hrot, h2, hA, heq⟩
      | ⟨seg, h1, hacc, hrot, h2, hA, heq⟩ | ⟨h1, hacc, hrot, hA, heq⟩
      | ⟨h1, hacc, hrot, heq⟩
  · rw [heq]; exact hdisk
  · rw [heq]; exact hdisk
  · rw [heq]; exact hdisk
  · rw [heq]
    obtain ⟨_, hidx⟩ := hInv.1 seg hA
    have hfc : s.fileCounter = seg.index + 1 := hidx.symm
    have hdisk2 : (closeActive cfg { s with acceptedCount := s.acceptedCount + 1 }
        seg).disk = window cfg.numFilesToKeep (seg.index + 2) := by
      show (enforceRetention cfg.numFilesToKeep s.fileCounter
        (s.disk ++ [seg.index])).disk = window cfg.numFilesToKeep (seg.index + 2)
      rw [hdisk, hfc]
      exact enforce_window cfg.numFilesToKeep seg.index hK
    show (closeActive cfg { s with acceptedCount := s.acceptedCount + 1 } seg).disk
      = window cfg.numFilesToKeep
          ((closeActive cfg { s with acceptedCount := s.acceptedCount + 1 }
            seg).fileCounter + 1)
    rw [hdisk2]
    have hfc2 : (closeActive cfg { s with acceptedCount := s.acceptedCount + 1 }
        seg).fileCounter = s.fileCounter := rfl
    rw [hfc2, hfc]
  · rw [heq]
    have hfc0 := hInv.2.1 hA
    show s.disk = window cfg.numFilesToKeep (s.fileCounter + 1)
    rw [hdisk, hfc0]
    rfl
  · rw [heq]
    exact hdisk

/-- The disk-window description holds at the end of every line-loop run. -/
theorem runLines_window (cfg : Config) (hK : 1 ≤ cfg.numFilesToKeep)
    (shutAt : Option Nat) (t0 : Nat) (inputs : List InLine) :
    (runLines cfg shutAt t0 inputs).disk
      = window cfg.numFilesToKeep (runLines cfg shutAt t0 inputs).fileCounter := by
  have h := runLinesAux_inv cfg shutAt
    (fun s => Inv s ∧ s.disk = window cfg.numFilesToKeep s.fileCounter)
    (fun s tick l hP hd => procLine_window cfg hK shutAt s tick l hP hd)
    inputs (initState t0) 0 ⟨Inv_init t0, rfl⟩ rfl
  exact h.2

end FlightLog

namespace FlightLog

/-- The for-body with maxSegments = 0 preserves: artifacts only for
already-closed files, disk equal to the dispatch log, and an empty removal
log — the pass always targets the current file counter, an index that has
never been dispatched, and therefore only warns. -/
theorem procLine_K0 (cfg : Config) (hK0 : cfg.numFilesToKeep = 0)
    (shutAt : Option Nat) (s : LoopState) (tick : Nat) (l : InLine)
    (hP : Inv s ∧ (∀ m ∈ s.disk, m < s.fileCounter)
      ∧ s.disk = s.dispatched ∧ s.removedLog = [])
    (hd : s.dropped = false) :
    (Inv (procLine cfg shutAt s tick l).1
      ∧ (∀ m ∈ (procLine cfg shutAt s tick l).1.disk,
          m < (procLine cfg shutAt s tick l).1.fileCounter)
      ∧ (procLine cfg shutAt s tick l).1.disk
          = (procLine cfg shutAt s tick l).1.dispatched
      ∧ (procLine cfg shutAt s tick l).1.removedLog = [])
    ∧ ((procLine cfg shutAt s tick l).2.2 = false →
        (procLine cfg shutAt s tick l).1.dropped = false) := by
  obtain ⟨hInv, hbound, hdd, hrl⟩ := hP
  have hmain := procLine_Inv cfg shutAt s tick l hInv hd
  refine ⟨⟨hmain.1, ?_⟩, hmain.2⟩
  rcases procLine_spec cfg shutAt s tick l with
      ⟨h1, heq⟩ | ⟨h1, hacc, heq⟩ | ⟨seg, h1, hacc, hrot, h2, hA, heq⟩
      | ⟨seg, h1, hacc, hrot, h2, hA, heq⟩ | ⟨h1, hacc, hrot, hA, heq⟩
      | ⟨h1, hacc, hrot, heq⟩
  · rw [heq]; exact ⟨hbound, hdd, hrl⟩
  · rw [heq]; exact ⟨hbound, hdd, hrl⟩
  · rw [heq]; exact ⟨hbound, hdd, hrl⟩
  · rw [heq]
    obtain ⟨_, hidx⟩ := hInv.1 seg hA
    have hnm : s.fileCounter ∉ s.disk ++ [seg.index] := by
      rw [List.mem_append, List.mem_singleton]
      rintro (hin | hone)
      · exact absurd (hbound _ hin) (by omega)
      · omega
    have hret : enforceRetention cfg.numFilesToKeep s.fileCounter
        (s.disk ++ [seg.index])
        = { disk := s.disk ++ [seg.index], target := some s.fileCounter,
            removed := none, missing := some s.fileCounter } := by
      rw [hK0]
      simp only [enforceRetention]
      rw [if_pos (Nat.zero_le _), Nat.sub_zero, if_neg hnm]
    refine ⟨?_, ?_, ?_⟩
    · show ∀ m ∈ (enforceRetention cfg.numFilesToKeep s.fileCounter
          (s.disk ++ [seg.index])).disk, m < s.fileCounter + 1
      rw [hret]
      intro m hm
      rw [List.mem_append, List.mem_singleton] at hm
      rcases hm with hin | hone
      · have := hbound _ hin
        omega
      · omega
    · show (enforceRetention cfg.numFilesToKeep s.fileCounter
          (s.disk ++ [seg.index])).disk = s.dispatched ++ [seg.index]
      rw [hret, hdd]
    · show s.removedLog ++ (enforceRetention cfg.numFilesToKeep s.fileCounter
          (s.disk ++ [seg.index])).removed.toList = []
      rw [hret, hrl]
      rfl
  · rw [heq]
    refine ⟨?_, hdd, hrl⟩
    show ∀ m ∈ s.disk, m < s.fileCounter + 1
    intro m hm
    have := hbound m hm
    omega
  · rw [heq]
    exact ⟨hbound, hdd, hrl⟩

/-- With maxSegments = 0, every run ends having removed nothing: the disk
still holds one artifact per closed file (assuming any compression timing —
the pass never even names a dispatched index). -/
theorem runLines_K0 (cfg : Config) (hK0 : cfg.numFilesToKeep = 0)
    (shutAt : Option Nat) (t0 : Nat) (inputs : List InLine) :
    (runLines cfg shutAt t0 inputs).removedLog = []
    ∧ (runLines cfg shutAt t0 inputs).disk
        = (runLines cfg shutAt t0 inputs).dispatched := by
  have hinit : ∀ m ∈ (initState t0).disk, m < (initState t0).fileCounter := by
    intro m hm
    cases hm
  have h := runLinesAux_inv cfg shutAt
    (fun s => Inv s ∧ (∀ m ∈ s.disk, m < s.fileCounter)
      ∧ s.disk = s.dispatched ∧ s.removedLog = [])
    (fun s tick l hP hd => procLine_K0 cfg hK0 shutAt s tick l hP hd)
    inputs (initState t0) 0
    ⟨Inv_init t0, hinit, rfl, rfl⟩ rfl
  exact ⟨h.2.2.2, h.2.2.1⟩

/-- C3 (amended): eviction arithmetic for every retention bound K ≥ 0,
over any disk, independent of compression timing.  A pass at current index
i computes target i − K when K ≤ i and does nothing when i < K; with K = 1
the target is the index of the very segment being rotated, so its artifact
is a deletion candidate; for K ≥ 2 the rotated segment's artifact is never
the target; with K = 0 the target is the current index itself, an index
never yet dispatched, so over a whole run retention removes nothing and one
artifact per closed segment accumulates — the at-most-K bound fails at
K = 0.  A pass never removes more than its single target: every index at
or above i − K + 1 keeps its multiplicity.  Under the prompt-compression
model assumption (each dispatched artifact on disk from dispatch on, which
the backgrounded gzip does not guarantee), for K ≥ 1 at most K compressed
artifacts remain after any run, all with index below the current counter. -/
theorem retention_window_after_rotation (cfg : Config) :
    (∀ fc disk, cfg.numFilesToKeep ≤ fc →
      (enforceRetention cfg.numFilesToKeep fc disk).target
        = some (fc - cfg.numFilesToKeep))
    ∧ (∀ fc disk, fc < cfg.numFilesToKeep →
      (enforceRetention cfg.numFilesToKeep fc disk).target = none
      ∧ (enforceRetention cfg.numFilesToKeep fc disk).disk = disk)
    ∧ (cfg.numFilesToKeep = 1 →
      ∀ a disk, (enforceRetention 1 (a + 1) disk).target = some a)
    ∧ (2 ≤ cfg.numFilesToKeep →
      ∀ a disk, (enforceRetention cfg.numFilesToKeep (a + 1) disk).target ≠ some a)
    ∧ (cfg.numFilesToKeep = 0 →
      ∀ fc disk, (enforceRetention 0 fc disk).target = some fc)
    ∧ (∀ fc disk m, fc - cfg.numFilesToKeep + 1 ≤ m →
      (enforceRetention cfg.numFilesToKeep fc disk).disk.count m = disk.count m)
    ∧ (cfg.numFilesToKeep = 0 → ∀ shutAt t0 inputs,
      (runLines cfg shutAt t0 inputs).removedLog = []
      ∧ (runLines cfg shutAt t0 inputs).disk
          = (runLines cfg shutAt t0 inputs).dispatched)
    ∧ (1 ≤ cfg.numFilesToKeep → ∀ shutAt t0 inputs,
      (runLines cfg shutAt t0 inputs).disk
          = window cfg.numFilesToKeep (runLines cfg shutAt t0 inputs).fileCounter
      ∧ (runLines cfg shutAt t0 inputs).disk.length ≤ cfg.numFilesToKeep
      ∧ ∀ m ∈ (runLines cfg shutAt t0 inputs).disk,
          m + 1 < (runLines cfg shutAt t0 inputs).fileCounter) := by
  refine ⟨?_, ?_, ?_, ?_, ?_, ?_, ?_, ?_⟩
  · intro fc disk hle
    simp only [enforceRetention]
    rw [if_pos hle]
    split <;> rfl
  · intro fc disk hlt
    have hno : ¬ cfg.numFilesToKeep ≤ fc := by omega
    simp only [enforceRetention]
    rw [if_neg hno]
    exact ⟨rfl, rfl⟩
  · intro h1 a disk
    simp only [enforceRetention]
    rw [if_pos (by omega : (1 : Nat) ≤ a + 1)]
    have ha : a + 1 - 1 = a := by omega
    split <;> simp [ha]
  · intro h2 a disk hcontra
    have htar : (enforceRetention cfg.numFilesToKeep (a + 1) disk).target
        = if cfg.numFilesToKeep ≤ a + 1 then some (a + 1 - cfg.numFilesToKeep)
          else none := by
      simp only [enforceRetention]
      split
      · split <;> rfl
      · rfl
    rw [htar] at hcontra
    by_cases hle : cfg.numFilesToKeep ≤ a + 1
    · rw [if_pos hle] at hcontra
      have := Option.some_injective _ hcontra
      omega
    · rw [if_neg hle] at hcontra
      cases hcontra
  · intro h0 fc disk
    simp only [enforceRetention]
    rw [if_pos (Nat.zero_le _), Nat.sub_zero]
    split <;> rfl
  · intro fc disk m hm
    by_cases hle : cfg.numFilesToKeep ≤ fc
    · have hne : m ≠ fc - cfg.numFilesToKeep := by omega
      simp only [enforceRetention]
      rw [if_pos hle]
      by_cases hmem : (fc - cfg.numFilesToKeep) ∈ disk
      · rw [if_pos hmem]
        exact List.count_erase_of_ne hne disk
      · rw [if_neg hmem]
    · simp only [enforceRetention]
      rw [if_neg hle]
  · intro h0 shutAt t0 inputs
    exact runLines_K0 cfg h0 shutAt t0 inputs
  · intro hK shutAt t0 inputs
    have hwin := runLines_window cfg hK shutAt t0 inputs
    refine ⟨hwin, ?_, ?_⟩
    · rw [hwin]
      exact window_length_le _ _
    · intro m hm
      rw [hwin] at hm
      exact (window_mem _ _ _ hm).1

/-- C3 check at concrete inputs: a pass at current index 3 with K = 2
targets artifact 1, not the rotated segment of index 2; with K = 0 a run
of two rotations removes nothing; and with K = 2 a run keeps at most 2
artifacts under the prompt-compression assumption. -/
theorem retention_window_after_rotation_check :
    (2 : Nat) ≤ 3
    ∧ (enforceRetention 2 3 [0, 1]).target = some 1
    ∧ (({ linesPerFile := 1, timePerFile := 1000000, numFilesToKeep := 0 } :
        Config).numFilesToKeep = 0)
    ∧ (runLines { linesPerFile := 1, timePerFile := 1000000, numFilesToKeep := 0 }
        none 0 [⟨"$A", 0⟩, ⟨"$B", 0⟩, ⟨"$C", 0⟩]).removedLog = []
    ∧ 1 ≤ (2 : Nat)
    ∧ (runLines { linesPerFile := 1, timePerFile := 1000000, numFilesToKeep := 2 }
        none 0 [⟨"$A", 0⟩, ⟨"$B", 0⟩, ⟨"$C", 0⟩]).disk.length ≤ 2 := by
  refine ⟨by decide, ?_, by decide, ?_, by decide, ?_⟩
  · exact (retention_window_after_rotation
      { linesPerFile := 1, timePerFile := 1000000, numFilesToKeep := 2 }).1
      3 [0, 1] (by decide)
  · exact ((retention_window_after_rotation
      { linesPerFile := 1, timePerFile := 1000000, numFilesToKeep := 0
      }).2.2.2.2.2.2.1 rfl none 0 [⟨"$A", 0⟩, ⟨"$B", 0⟩, ⟨"$C", 0⟩]).1
  · exact ((retention_window_after_rotation
      { linesPerFile := 1, timePerFile := 1000000, numFilesToKeep := 2
      }).2.2.2.2.2.2.2 (by decide) none 0 [⟨"$A", 0⟩, ⟨"$B", 0⟩, ⟨"$C", 0⟩]).2.1

/-- C3 as stated is refuted at concrete runs.  With maxSegments = 1,
lines_per_file = 1 and four accepted lines, every rotation's eviction
target is exactly the index of the segment being rotated — the target log
equals the dispatch log — so the rotated segment's artifact is selected
for deletion, and even under the most favorable compression timing the
artifact for index 1 does not survive to the rotation that closes index 2.
With maxSegments = 0 and three accepted lines, the passes target indices 1
and 2 — each the never-yet-dispatched current index — remove nothing, and
leave artifacts 0 and 1 on disk: more than K = 0 artifacts with index
below the current index remain. -/
theorem retention_scenario_refuted :
    (runLines { linesPerFile := 1, timePerFile := 1000000, numFilesToKeep := 1 }
        none 0 [⟨"$A", 0⟩, ⟨"$B", 0⟩, ⟨"$C", 0⟩, ⟨"$D", 0⟩]).evictTargets
      = (runLines { linesPerFile := 1, timePerFile := 1000000, numFilesToKeep := 1 }
        none 0 [⟨"$A", 0⟩, ⟨"$B", 0⟩, ⟨"$C", 0⟩, ⟨"$D", 0⟩]).dispatched
    ∧ (runLines { linesPerFile := 1, timePerFile := 1000000, numFilesToKeep := 1 }
        none 0 [⟨"$A", 0⟩, ⟨"$B", 0⟩, ⟨"$C", 0⟩, ⟨"$D", 0⟩]).evictTargets = [0, 1, 2]
    ∧ ¬ (1 ∈ (runLines { linesPerFile := 1, timePerFile := 1000000, numFilesToKeep := 1 }
        none 0 [⟨"$A", 0⟩, ⟨"$B", 0⟩, ⟨"$C", 0⟩, ⟨"$D", 0⟩]).disk)
    ∧ (runLines { linesPerFile := 1, timePerFile := 1000000, numFilesToKeep := 0 }
        none 0 [⟨"$A", 0⟩, ⟨"$B", 0⟩, ⟨"$C", 0⟩]).removedLog = []
    ∧ (runLines { linesPerFile := 1, timePerFile := 1000000, numFilesToKeep := 0 }
        none 0 [⟨"$A", 0⟩, ⟨"$B", 0⟩, ⟨"$C", 0⟩]).evictTargets = [1, 2]
    ∧ (runLines { linesPerFile := 1, timePerFile := 1000000, numFilesToKeep := 0 }
        none 0 [⟨"$A", 0⟩, ⟨"$B", 0⟩, ⟨"$C", 0⟩]).disk = [0, 1]
    ∧ ¬ ((runLines { linesPerFile := 1, timePerFile := 1000000, numFilesToKeep := 0 }
        none 0 [⟨"$A", 0⟩, ⟨"$B", 0⟩, ⟨"$C", 0⟩]).disk.length ≤ 0) := by
  refine ⟨rfl, rfl, by decide, rfl, rfl, rfl, by decide⟩

end FlightLog

namespace FlightLog

/-- C4: a retention pass invoked with current index i and bound keep
computes the eviction index i - keep; when that is in range it removes
exactly the artifact of that index if present, reports it missing (warning)
and removes nothing if absent, and never touches any artifact with index at
or above i - keep + 1; when i < keep it does nothing. -/
theorem enforce_retention_contract (keep i : Nat) (disk : List Nat) :
    (keep ≤ i →
      (enforceRetention keep i disk).target = some (i - keep)
      ∧ ((i - keep) ∈ disk →
          (enforceRetention keep i disk).disk = disk.erase (i - keep)
          ∧ (enforceRetention keep i disk).removed = some (i - keep)
          ∧ (enforceRetention keep i disk).missing = none)
      ∧ ((i - keep) ∉ disk →
          (enforceRetention keep i disk).disk = disk
          ∧ (enforceRetention keep i disk).removed = none
          ∧ (enforceRetention keep i disk).missing = some (i - keep))
      ∧ (∀ m, i - keep + 1 ≤ m →
          (enforceRetention keep i disk).disk.count m = disk.count m))
    ∧ (i < keep →
      (enforceRetention keep i disk).disk = disk
      ∧ (enforceRetention keep i disk).target = none
      ∧ (enforceRetention keep i disk).removed = none) := by
  constructor
  · intro hle
    refine ⟨?_, ?_, ?_, ?_⟩
    · simp only [enforceRetention]
      rw [if_pos hle]
      split <;> rfl
    · intro hmem
      simp only [enforceRetention]
      rw [if_pos hle, if_pos hmem]
      exact ⟨rfl, rfl, rfl⟩
    · intro hmem
      simp only [enforceRetention]
      rw [if_pos hle, if_neg hmem]
      exact ⟨rfl, rfl, rfl⟩
    · intro m hm
      have hne : m ≠ i - keep := by omega
      simp only [enforceRetention]
      rw [if_pos hle]
      by_cases hmem : (i - keep) ∈ disk
      · rw [if_pos hmem]
        exact List.count_erase_of_ne hne disk
      · rw [if_neg hmem]
  · intro hlt
    have hno : ¬ keep ≤ i := by omega
    simp only [enforceRetention]
    rw [if_neg hno]
    exact ⟨rfl, rfl, rfl⟩

/-- C4 check at concrete inputs: with current index 52 and keep 50, the
pass targets index 2, removes it when present and leaves index 3 untouched,
and warns without removing when index 2 is absent. -/
theorem enforce_retention_contract_check :
    (50 : Nat) ≤ 52
    ∧ (enforceRetention 50 52 [2, 3]).target = some 2
    ∧ (enforceRetention 50 52 [2, 3]).disk = [3]
    ∧ (enforceRetention 50 52 [2, 3]).disk.count 3 = [2, 3].count 3
    ∧ (enforceRetention 50 52 [3]).missing = some 2
    ∧ (enforceRetention 50 52 [3]).disk = [3] := by
  have h := enforce_retention_contract 50 52 [2, 3]
  have h2 := enforce_retention_contract 50 52 [3]
  refine ⟨by decide, (h.1 (by decide)).1, ?_, ?_, ?_, ?_⟩
  · rw [((h.1 (by decide)).2.1 (by decide)).1]
    decide
  · exact (h.1 (by decide)).2.2.2 3 (by decide)
  · exact ((h2.1 (by decide)).2.2.1 (by decide)).2.2
  · exact ((h2.1 (by decide)).2.2.1 (by decide)).1

end FlightLog

namespace FlightLog

theorem finalize_active (s : LoopState) : (finalizeState s).active = none := by
  cases h : s.active <;> simp [finalizeState, h]

theorem finalize_dispatched (s : LoopState)
    (h : s.dispatched = s.closed.map Segment.index) :
    (finalizeState s).dispatched = (finalizeState s).closed.map Segment.index := by
  cases hA : s.active <;> simp [finalizeState, hA, h]

theorem finalize_totalData (s : LoopState) :
    totalData (finalizeState s) = totalData s := by
  cases hA : s.active <;> simp [finalizeState, totalData, hA]

theorem finalize_dropped (s : LoopState) :
    (finalizeState s).dropped = s.dropped := by
  cases hA : s.active <;> simp [finalizeState, hA]

theorem finalize_acceptedCount (s : LoopState) :
    (finalizeState s).acceptedCount = s.acceptedCount := by
  cases hA : s.active <;> simp [finalizeState, hA]

/-- C5 (amended): over a full run with any shutdown schedule, the final
cleanup leaves no file open and every closed file dispatched for
compression, in order; the data lines written account for every accepted
line except the single record abandoned when the flag is first observed at
a rotation check with a file open (recorded by the dropped mark); once the
flag is read at a per-line checkpoint the body changes nothing and breaks,
so no further record is processed and no segment is opened; and the
abandoning rotation check itself opens no segment, closes no file and
writes nothing. -/
theorem shutdown_drain_accounting (cfg : Config) (shutAt : Option Nat)
    (t0 : Nat) (inputs : List InLine) :
    (runMain cfg shutAt t0 inputs).active = none
    ∧ (runMain cfg shutAt t0 inputs).dispatched
        = (runMain cfg shutAt t0 inputs).closed.map Segment.index
    ∧ totalData (runMain cfg shutAt t0 inputs)
        + (cond (runMain cfg shutAt t0 inputs).dropped 1 0)
        = (runMain cfg shutAt t0 inputs).acceptedCount
    ∧ (∀ s tick l, shutSeen shutAt tick = true →
        procLine cfg shutAt s tick l = (s, tick + 1, true))
    ∧ (∀ s tick l seg, shutSeen shutAt tick = false → accept l.text = true →
        rotPred cfg s l.time = true → shutSeen shutAt (tick + 1) = true →
        s.active = some seg →
        (procLine cfg shutAt s tick l).1.fileCounter = s.fileCounter
        ∧ (procLine cfg shutAt s tick l).1.closed = s.closed
        ∧ (procLine cfg shutAt s tick l).1.active = s.active
        ∧ (procLine cfg shutAt s tick l).1.dropped = true
        ∧ (procLine cfg shutAt s tick l).2.2 = true) := by
  have hInv : Inv (runLines cfg shutAt t0 inputs) :=
    runLines_Inv cfg shutAt t0 inputs
  refine ⟨finalize_active _, finalize_dispatched _ hInv.2.2.1, ?_, ?_, ?_⟩
  · show totalData (finalizeState (runLines cfg shutAt t0 inputs))
        + (cond (finalizeState (runLines cfg shutAt t0 inputs)).dropped 1 0)
        = (finalizeState (runLines cfg shutAt t0 inputs)).acceptedCount
    rw [finalize_totalData, finalize_dropped, finalize_acceptedCount]
    exact hInv.2.2.2
  · intro s tick l h
    simp [procLine, h]
  · intro s tick l seg h1 hacc hrot h2 hA
    have hrot2 : rotPred cfg
        { s with active := some seg, acceptedCount := s.acceptedCount + 1 }
        l.time = true := by
      have he :
          ({ s with active := some seg, acceptedCount := s.acceptedCount + 1 } : LoopState)
          = { s with acceptedCount := s.acceptedCount + 1 } := by rw [hA]
      rw [he]
      exact hrot
    refine ⟨?_, ?_, ?_, ?_, ?_⟩ <;>
      simp [procLine, h1, hacc, hA, h2, hrot2]

/-- C5 check at a concrete run: the flag set after all reads lets both
accepted records reach segment 0, which is closed and dispatched by the
cleanup. -/
theorem shutdown_drain_accounting_check :
    shutSeen (some 10) 0 = false
    ∧ totalData (runMain { linesPerFile := 10, timePerFile := 1000000, numFilesToKeep := 50 }
        (some 10) 0 [⟨"$A", 0⟩, ⟨"$B", 0⟩])
        + (cond (runMain { linesPerFile := 10, timePerFile := 1000000, numFilesToKeep := 50 }
            (some 10) 0 [⟨"$A", 0⟩, ⟨"$B", 0⟩]).dropped 1 0)
        = (runMain { linesPerFile := 10, timePerFile := 1000000, numFilesToKeep := 50 }
            (some 10) 0 [⟨"$A", 0⟩, ⟨"$B", 0⟩]).acceptedCount
    ∧ (runMain { linesPerFile := 10, timePerFile := 1000000, numFilesToKeep := 50 }
        (some 10) 0 [⟨"$A", 0⟩, ⟨"$B", 0⟩]).active = none := by
  refine ⟨by decide, ?_, ?_⟩
  · exact (shutdown_drain_accounting
      { linesPerFile := 10, timePerFile := 1000000, numFilesToKeep := 50 }
      (some 10) 0 [⟨"$A", 0⟩, ⟨"$B", 0⟩]).2.2.1
  · exact (shutdown_drain_accounting
      { linesPerFile := 10, timePerFile := 1000000, numFilesToKeep := 50 }
      (some 10) 0 [⟨"$A", 0⟩, ⟨"$B", 0⟩]).1

/-- C5 as stated is refuted at a concrete run: the signal arrives between
the per-line checkpoint of the second record (flag read number 2, unset)
and the rotation check it triggers (flag read number 3, set); the second
record passes the filter (accepted, count 2) yet is written to no segment —
only one data line exists, segment 0 holds only the first record, and the
run ends with the dropped mark set. -/
theorem shutdown_no_loss_refuted :
    accept "$B" = true
    ∧ shutSeen (some 3) 2 = false
    ∧ (runMain { linesPerFile := 1, timePerFile := 1000000, numFilesToKeep := 50 }
        (some 3) 0 [⟨"$A", 0⟩, ⟨"$B", 0⟩]).acceptedCount = 2
    ∧ totalData (runMain { linesPerFile := 1, timePerFile := 1000000, numFilesToKeep := 50 }
        (some 3) 0 [⟨"$A", 0⟩, ⟨"$B", 0⟩]) = 1
    ∧ (runMain { linesPerFile := 1, timePerFile := 1000000, numFilesToKeep := 50 }
        (some 3) 0 [⟨"$A", 0⟩, ⟨"$B", 0⟩]).closed.map Segment.lines = [["$A"]]
    ∧ (runMain { linesPerFile := 1, timePerFile := 1000000, numFilesToKeep := 50 }
        (some 3) 0 [⟨"$A", 0⟩, ⟨"$B", 0⟩]).active = none
    ∧ (runMain { linesPerFile := 1, timePerFile := 1000000, numFilesToKeep := 50 }
        (some 3) 0 [⟨"$A", 0⟩, ⟨"$B", 0⟩]).dropped = true := by
  refine ⟨by decide, by decide, rfl, rfl, rfl, rfl, rfl⟩

end FlightLog

namespace FlightLog

/-- The for-body preserves the per-file line bound when lines_per_file is
at least 1, for any shutdown schedule. -/
theorem procLine_count (cfg : Config) (hL : 1 ≤ cfg.linesPerFile)
    (shutAt : Option Nat) (s : LoopState) (tick : Nat) (l : InLine)
    (hP : Inv s ∧ s.lineCount ≤ cfg.linesPerFile
      ∧ ∀ seg ∈ s.closed, seg.lines.length ≤ cfg.linesPerFile)
    (hd : s.dropped = false) :
    (Inv (procLine cfg shutAt s tick l).1
      ∧ (procLine cfg shutAt s tick l).1.lineCount ≤ cfg.linesPerFile
      ∧ ∀ seg ∈ (procLine cfg shutAt s tick l).1.closed,
          seg.lines.length ≤ cfg.linesPerFile)
    ∧ ((procLine cfg shutAt s tick l).2.2 = false →
        (procLine cfg shutAt s tick l).1.dropped = false) := by
  obtain ⟨hInv, hcnt, hcl⟩ := hP
  have hmain := procLine_Inv cfg shutAt s tick l hInv hd
  refine ⟨⟨hmain.1, ?_⟩, hmain.2⟩
  rcases procLine_spec cfg shutAt s tick l with
      ⟨h1, heq⟩ | ⟨h1, hacc, heq⟩ | ⟨seg, h1, hacc, hrot, h2, hA, heq⟩
      | ⟨seg, h1, hacc, hrot, h2, hA, heq⟩ | ⟨h1, hacc, hrot, hA, heq⟩
      | ⟨h1, hacc, hrot, heq⟩
  · rw [heq]; exact ⟨hcnt, hcl⟩
  · rw [heq]; exact ⟨hcnt, hcl⟩
  · rw [heq]; exact ⟨hcnt, hcl⟩
  · rw [heq]
    constructor
    · show 0 + 1 ≤ cfg.linesPerFile
      omega
    · intro seg2 hseg2
      have hcl2 : (appendData
          (openNew (closeActive cfg { s with acceptedCount := s.acceptedCount + 1 } seg)
            l.time)
          (pyStrip l.text)).closed = s.closed ++ [seg] := rfl
      rw [hcl2, List.mem_append, List.mem_singleton] at hseg2
      rcases hseg2 with hin | hone
      · exact hcl seg2 hin
      · rw [hone, (hInv.1 seg hA).1]
        exact hcnt
  · rw [heq]
    constructor
    · show 0 + 1 ≤ cfg.linesPerFile
      omega
    · intro seg2 hseg2
      exact hcl seg2 hseg2
  · rw [heq]
    constructor
    · show s.lineCount + 1 ≤ cfg.linesPerFile
      rw [rotPred] at hrot
      simp only [Bool.or_eq_false_iff, decide_eq_false_iff_not] at hrot
      omega
    · intro seg2 hseg2
      exact hcl seg2 hseg2

/-- C6: with lines_per_file = L at least 1, every file produced by any run
— the closed ones and the still-open one alike — holds at most L accepted
records; and in the concrete scenario L = 2 with five accepted lines,
exactly three files arise, of indices 0, 1, 2 holding 2, 2 and 1 records
respectively. -/
theorem segment_line_bound (cfg : Config) (hL : 1 ≤ cfg.linesPerFile) :
    (∀ shutAt t0 inputs,
      (∀ seg ∈ (runLines cfg shutAt t0 inputs).closed,
        seg.lines.length ≤ cfg.linesPerFile)
      ∧ (∀ seg, (runLines cfg shutAt t0 inputs).active = some seg →
          seg.lines.length ≤ cfg.linesPerFile))
    ∧ (runLines { linesPerFile := 2, timePerFile := 1000000, numFilesToKeep := 50 }
        none 0 [⟨"$A", 0⟩, ⟨"$B", 0⟩, ⟨"$C", 0⟩, ⟨"$D", 0⟩, ⟨"$E", 0⟩]).closed.map
          (fun seg => (seg.index, seg.lines))
        = [(0, ["$A", "$B"]), (1, ["$C", "$D"])]
    ∧ (runLines { linesPerFile := 2, timePerFile := 1000000, numFilesToKeep := 50 }
        none 0 [⟨"$A", 0⟩, ⟨"$B", 0⟩, ⟨"$C", 0⟩, ⟨"$D", 0⟩, ⟨"$E", 0⟩]).active
        = some { index := 2, openedAt := 0, lines := ["$E"] }
    ∧ (runLines { linesPerFile := 2, timePerFile := 1000000, numFilesToKeep := 50 }
        none 0 [⟨"$A", 0⟩, ⟨"$B", 0⟩, ⟨"$C", 0⟩, ⟨"$D", 0⟩, ⟨"$E", 0⟩]).fileCounter
        = 3 := by
  refine ⟨?_, rfl, rfl, rfl⟩
  intro shutAt t0 inputs
  have h := runLinesAux_inv cfg shutAt
    (fun s => Inv s ∧ s.lineCount ≤ cfg.linesPerFile
      ∧ ∀ seg ∈ s.closed, seg.lines.length ≤ cfg.linesPerFile)
    (fun s tick l hP hd => procLine_count cfg hL shutAt s tick l hP hd)
    inputs (initState t0) 0 ⟨Inv_init t0, by simp [initState], by intro seg h; cases h⟩ rfl
  refine ⟨h.2.2, ?_⟩
  intro seg hseg
  rw [(h.1.1 seg hseg).1]
  exact h.2.1

/-- C6 check at a concrete input: the bound holds of the scenario run. -/
theorem segment_line_bound_check :
    1 ≤ (2 : Nat)
    ∧ ∀ seg ∈ (runLines { linesPerFile := 2, timePerFile := 1000000, numFilesToKeep := 50 }
        none 0 [⟨"$A", 0⟩, ⟨"$B", 0⟩, ⟨"$C", 0⟩, ⟨"$D", 0⟩, ⟨"$E", 0⟩]).closed,
        seg.lines.length ≤ 2 := by
  refine ⟨by decide, ?_⟩
  exact ((segment_line_bound
    { linesPerFile := 2, timePerFile := 1000000, numFilesToKeep := 50 }
    (by decide)).1 none 0
    [⟨"$A", 0⟩, ⟨"$B", 0⟩, ⟨"$C", 0⟩, ⟨"$D", 0⟩, ⟨"$E", 0⟩]).1

end FlightLog

namespace FlightLog

/-- C7: a raw line is accepted iff its trimmed text is nonempty and its
first character lies in the configured sentinel set (the code's startswith
test agrees with the specification's wording); a rejected line leaves the
loop state entirely unchanged — nothing is written and the rotation line
counter does not move; and the concrete scenario with lines_per_file = 10
puts exactly the two sentinel lines into segment 0, with the junk line
absent and the counter at 2. -/
theorem acceptance_rule_and_filter :
    (∀ line, accept line = specAccept line)
    ∧ (∀ (cfg : Config) (s : LoopState) (tick : Nat) (l : InLine),
        accept l.text = false →
        procLine cfg none s tick l = (s, tick + 1, false))
    ∧ (runLines { linesPerFile := 10, timePerFile := 1000000, numFilesToKeep := 50 }
        none 0 [⟨"$GPGGA,A", 0⟩, ⟨"junk", 0⟩, ⟨"$GPRMC,B", 0⟩]).closed = []
    ∧ (runLines { linesPerFile := 10, timePerFile := 1000000, numFilesToKeep := 50 }
        none 0 [⟨"$GPGGA,A", 0⟩, ⟨"junk", 0⟩, ⟨"$GPRMC,B", 0⟩]).active
        = some { index := 0, openedAt := 0, lines := ["$GPGGA,A", "$GPRMC,B"] }
    ∧ (runLines { linesPerFile := 10, timePerFile := 1000000, numFilesToKeep := 50 }
        none 0 [⟨"$GPGGA,A", 0⟩, ⟨"junk", 0⟩, ⟨"$GPRMC,B", 0⟩]).lineCount = 2 := by
  refine ⟨?_, ?_, rfl, rfl, rfl⟩
  · intro line
    cases h : (pyStrip line).data with
    | nil => simp [accept, specAccept, h]
    | cons c cs =>
      simp only [accept, specAccept, h, sentinels, List.isEmpty_cons, Bool.not_false,
        Bool.true_and, List.head?_cons, List.mem_singleton]
      rw [Bool.eq_iff_iff]
      simp
  · intro cfg s tick l hacc
    rcases procLine_none_cases cfg s l tick with
        ⟨_, heq⟩ | ⟨seg, hacc2, _, _, _⟩ | ⟨hacc2, _, _, _⟩ | ⟨hacc2, _, _⟩
    · exact heq
    · rw [hacc] at hacc2
      cases hacc2
    · rw [hacc] at hacc2
      cases hacc2
    · rw [hacc] at hacc2
      cases hacc2

/-- C7 check at a concrete input: the rejected middle line changes nothing
when fed to the for-body in the state the first line produced. -/
theorem acceptance_rule_and_filter_check :
    accept "junk" = false
    ∧ accept "junk" = specAccept "junk"
    ∧ procLine { linesPerFile := 10, timePerFile := 1000000, numFilesToKeep := 50 }
        none
        (runLines { linesPerFile := 10, timePerFile := 1000000, numFilesToKeep := 50 }
          none 0 [⟨"$GPGGA,A", 0⟩]) 2 { text := "junk", time := 0 }
      = (runLines { linesPerFile := 10, timePerFile := 1000000, numFilesToKeep := 50 }
          none 0 [⟨"$GPGGA,A", 0⟩], 3, false) := by
  refine ⟨by decide, acceptance_rule_and_filter.1 "junk", ?_⟩
  exact acceptance_rule_and_filter.2.1
    { linesPerFile := 10, timePerFile := 1000000, numFilesToKeep := 50 }
    (runLines { linesPerFile := 10, timePerFile := 1000000, numFilesToKeep := 50 }
      none 0 [⟨"$GPGGA,A", 0⟩]) 2 { text := "junk", time := 0 } (by decide)

end FlightLog

namespace FlightLog

theorem dropWhile_append_last (p : Char → Bool) (xs : List Char) (c : Char)
    (hc : p c = false) :
    ∃ t, List.dropWhile p (xs ++ [c]) = t ++ [c] := by
  rw [List.dropWhile_append]
  by_cases h : (List.dropWhile p xs).isEmpty
  · rw [if_pos h]
    refine ⟨[], ?_⟩
    rw [List.dropWhile_cons_of_neg (by simp [hc])]
    rfl
  · rw [if_neg h]
    exact ⟨List.dropWhile p xs, rfl⟩

/-- Trimming a line that opens with a non-space character keeps that
character in front. -/
theorem pyStrip_head_cons (c : Char) (l : List Char) (hc : pyIsSpace c = false) :
    (pyStrip (String.mk (c :: l))).data.head? = some c := by
  show ((((c :: l).dropWhile pyIsSpace).reverse.dropWhile pyIsSpace).reverse).head?
    = some c
  rw [List.dropWhile_cons_of_neg (by simp [hc])]
  rw [List.reverse_cons]
  obtain ⟨t, ht⟩ := dropWhile_append_last pyIsSpace l.reverse c hc
  rw [ht, List.reverse_append]
  rfl

/-- The time marker is never mistaken for a data sentence. -/
theorem accept_markLine (stamp : String) : accept (markLine stamp) = false := by
  have hdata : (markLine stamp).data = '#' :: ("NTP_TIME " ++ stamp).data := rfl
  have hhead : (pyStrip (markLine stamp)).data.head? = some '#' := by
    have hmk : markLine stamp = String.mk ('#' :: ("NTP_TIME " ++ stamp).data) := by
      cases stamp with
      | mk d => rfl
    rw [hmk]
    exact pyStrip_head_cons '#' _ (by decide)
  rw [accept]
  simp only [hhead]
  simp

/-- C8: the periodic marker write leaves the rotation state untouched — the
line counter, file counter and rotation clock are unchanged, a file stays
open iff it was open, the rotation test gives the same verdict at every
instant afterwards, nothing at all happens when no file is open — and the
marker line carries the comment prefix, which is outside the data sentinel
set, so a marker can never be counted or drive a rotation. -/
theorem marker_write_frame (s : LoopState) (t lastMark interval : Nat)
    (stamp : String) :
    (annotStep s t lastMark interval stamp).1.lineCount = s.lineCount
    ∧ (annotStep s t lastMark interval stamp).1.fileCounter = s.fileCounter
    ∧ (annotStep s t lastMark interval stamp).1.startTime = s.startTime
    ∧ (annotStep s t lastMark interval stamp).1.active.isSome = s.active.isSome
    ∧ (∀ (cfg : Config) (t2 : Nat),
        rotPred cfg (annotStep s t lastMark interval stamp).1 t2
          = rotPred cfg s t2)
    ∧ (s.active = none → annotStep s t lastMark interval stamp = (s, lastMark))
    ∧ (markLine stamp).data.head? = some '#'
    ∧ accept (markLine stamp) = false
    ∧ ¬ '#' ∈ sentinels := by
  by_cases h : (s.active.isSome && decide (lastMark + interval ≤ t)) = true
  · refine ⟨?_, ?_, ?_, ?_, ?_, ?_, rfl, accept_markLine stamp, by decide⟩
    · simp [annotStep, h]
    · simp [annotStep, h]
    · simp [annotStep, h]
    · simp [annotStep, h]
    · intro cfg t2
      simp only [annotStep, h, if_true]
      rw [rotPred, rotPred]
      simp
    · intro hA
      rw [hA] at h
      simp at h
  · refine ⟨?_, ?_, ?_, ?_, ?_, ?_, rfl, accept_markLine stamp, by decide⟩
    · simp [annotStep, h]
    · simp [annotStep, h]
    · simp [annotStep, h]
    · simp [annotStep, h]
    · intro cfg t2
      simp [annotStep, h]
    · intro hA
      simp [annotStep, h]

/-- C8 check at a concrete state: a marker written into an open file leaves
the counters alone and the rotation verdict unchanged. -/
theorem marker_write_frame_check :
    (annotStep (runLines { linesPerFile := 10, timePerFile := 1000000, numFilesToKeep := 50 }
        none 0 [⟨"$GPGGA,A", 0⟩]) 7 0 5 "stamp").1.lineCount
      = (runLines { linesPerFile := 10, timePerFile := 1000000, numFilesToKeep := 50 }
        none 0 [⟨"$GPGGA,A", 0⟩]).lineCount
    ∧ ((runLines { linesPerFile := 10, timePerFile := 1000000, numFilesToKeep := 50 }
        none 0 [⟨"$GPGGA,A", 0⟩]).active = none →
        annotStep (runLines { linesPerFile := 10, timePerFile := 1000000, numFilesToKeep := 50 }
          none 0 [⟨"$GPGGA,A", 0⟩]) 7 0 5 "stamp"
        = (runLines { linesPerFile := 10, timePerFile := 1000000, numFilesToKeep := 50 }
            none 0 [⟨"$GPGGA,A", 0⟩], 0))
    ∧ accept (markLine "stamp") = false := by
  refine ⟨?_, ?_, ?_⟩
  · exact (marker_write_frame
      (runLines { linesPerFile := 10, timePerFile := 1000000, numFilesToKeep := 50 }
        none 0 [⟨"$GPGGA,A", 0⟩]) 7 0 5 "stamp").1
  · exact (marker_write_frame
      (runLines { linesPerFile := 10, timePerFile := 1000000, numFilesToKeep := 50 }
        none 0 [⟨"$GPGGA,A", 0⟩]) 7 0 5 "stamp").2.2.2.2.2.1
  · exact (marker_write_frame
      (runLines { linesPerFile := 10, timePerFile := 1000000, numFilesToKeep := 50 }
        none 0 [⟨"$GPGGA,A", 0⟩]) 7 0 5 "stamp").2.2.2.2.2.2.2.1

end FlightLog

namespace FlightLog

/-- C9 as stated is refuted: gatherNMEAcompress.py catches the connection
failure (socket.error, line 232), prints a message, runs the finally block
and lets main return — no sys.exit exists in the script — so the process
terminates with status 0, not a non-zero status. -/
theorem connect_failure_exit_status_refuted :
    nmeaExitCode RunEnd.connectFail = 0 := rfl

/-- C9 (amended): on every ending cause — connection failure and read
error included — the final cleanup leaves no file open and any file that
was open is closed and dispatched for compression, and the process exits
with status 0 on every path: clean, drained and fatal ends are not
distinguished by the exit status. -/
theorem error_path_cleanup_and_exit (e : RunEnd) (s : LoopState) :
    (nmeaMainEnd e s).2 = 0
    ∧ (nmeaMainEnd e s).1.active = none
    ∧ (∀ seg, s.active = some seg →
        seg ∈ (nmeaMainEnd e s).1.closed
        ∧ seg.index ∈ (nmeaMainEnd e s).1.dispatched) := by
  refine ⟨?_, ?_, ?_⟩
  · cases e <;> rfl
  · exact finalize_active s
  · intro seg hA
    constructor
    · show seg ∈ (finalizeState s).closed
      rw [finalizeState, hA]
      simp
    · show seg.index ∈ (finalizeState s).dispatched
      rw [finalizeState, hA]
      simp

/-- C9 check at a concrete state: a read error ends with exit status 0 and
the open segment of index 0 closed and dispatched. -/
theorem error_path_cleanup_and_exit_check :
    (nmeaMainEnd RunEnd.readError
      (runLines { linesPerFile := 10, timePerFile := 1000000, numFilesToKeep := 50 }
        none 0 [⟨"$GPGGA,A", 0⟩])).2 = 0
    ∧ ((runLines { linesPerFile := 10, timePerFile := 1000000, numFilesToKeep := 50 }
        none 0 [⟨"$GPGGA,A", 0⟩]).active
          = some { index := 0, openedAt := 0, lines := ["$GPGGA,A"] }
        ∧ ({ index := 0, openedAt := 0, lines := ["$GPGGA,A"] } : Segment)
            ∈ (nmeaMainEnd RunEnd.readError
              (runLines { linesPerFile := 10, timePerFile := 1000000, numFilesToKeep := 50 }
                none 0 [⟨"$GPGGA,A", 0⟩])).1.closed) := by
  refine ⟨(error_path_cleanup_and_exit RunEnd.readError _).1, rfl, ?_⟩
  exact ((error_path_cleanup_and_exit RunEnd.readError
    (runLines { linesPerFile := 10, timePerFile := 1000000, numFilesToKeep := 50 }
      none 0 [⟨"$GPGGA,A", 0⟩])).2.2
    { index := 0, openedAt := 0, lines := ["$GPGGA,A"] } rfl).1

/-- C10: the read loop splits each received chunk into lines on its own —
running the loop over chunks equals running the flag-free line loop over
the concatenation of each chunk's splitlines, so a logical line whose bytes
arrive across two reads is handled as two independent lines; concretely,
the unsplit sentence is accepted whole, while the split arrival writes only
the first fragment (it passes the sentinel test) and discards the second,
and the original sentence is never reassembled in any segment. -/
theorem fragmented_reads_processed_independently :
    (∀ (cfg : Config) (s : LoopState) (chunks : List (String × Nat)),
      runChunks cfg s chunks
        = runLinesAux cfg none s 0
            (chunks.flatMap fun ch =>
              (pySplitlines ch.1).map fun txt => { text := txt, time := ch.2 }))
    ∧ (runChunks { linesPerFile := 10, timePerFile := 1000000, numFilesToKeep := 50 }
        (initState 0) [("$GPGGA,A\r\n", 0)]).active
        = some { index := 0, openedAt := 0, lines := ["$GPGGA,A"] }
    ∧ (runChunks { linesPerFile := 10, timePerFile := 1000000, numFilesToKeep := 50 }
        (initState 0) [("$GPG", 0), ("GA,A\r\n", 0)]).active
        = some { index := 0, openedAt := 0, lines := ["$GPG"] }
    ∧ accept "GA,A" = false
    ∧ (runChunks { linesPerFile := 10, timePerFile := 1000000, numFilesToKeep := 50 }
        (initState 0) [("$GPG", 0), ("GA,A\r\n", 0)]).acceptedCount = 1 := by
  refine ⟨?_, rfl, rfl, by decide, rfl⟩
  intro cfg s chunks
  induction chunks generalizing s with
  | nil => rfl
  | cons ch rest ih =>
    have hinner : ∀ (txts : List String) (s2 : LoopState),
        txts.foldl (fun s3 txt => procLineNS cfg s3 { text := txt, time := ch.2 }) s2
          = (txts.map fun txt => ({ text := txt, time := ch.2 } : InLine)).foldl
              (procLineNS cfg) s2 := by
      intro txts
      induction txts with
      | nil => intro s2; rfl
      | cons txt more ih2 =>
        intro s2
        rw [List.foldl_cons, List.map_cons, List.foldl_cons, ih2]
    have hstep : runChunks cfg s (ch :: rest)
        = runChunks cfg ((pySplitlines ch.1).foldl
            (fun s3 txt => procLineNS cfg s3 { text := txt, time := ch.2 }) s) rest := rfl
    rw [hstep, ih, List.flatMap_cons]
    simp only [runLinesAux_none_foldl]
    rw [List.foldl_append, hinner]

end FlightLog
